import Mathlib

/-!
Verification development for the ATel report extraction pipeline
(`backend/controller/importer/parser.py`).  The Python functions are
shallowly embedded as executable Lean definitions: strings are `String`
(scanned as `List Char`), Python exceptions become an explicit error type,
and the regular expressions of the source are embedded either as a small
backtracking regex interpreter (for the date grammars) or as direct
boundary-bounded token scans (for the keyword and alias patterns, whose
regexes are literal tokens wrapped in one character class on each side).
-/

/-- Membership-accumulating core of `dict.fromkeys`-style de-duplication:
keeps the first occurrence of each value, dropping later repeats. -/
def dedupFirstAux [DecidableEq α] (seen : List α) : List α → List α
  | [] => []
  | x :: xs => if x ∈ seen then dedupFirstAux seen xs else x :: dedupFirstAux (x :: seen) xs

/-- Python's `list(dict.fromkeys(xs))`: de-duplicate preserving first occurrence. -/
def dedupFirst [DecidableEq α] (xs : List α) : List α := dedupFirstAux [] xs

theorem mem_dedupFirstAux [DecidableEq α] (seen : List α) (xs : List α) (a : α) :
    a ∈ dedupFirstAux seen xs ↔ a ∈ xs ∧ a ∉ seen := by
  induction xs generalizing seen with
  | nil => simp [dedupFirstAux]
  | cons x xs ih =>
    by_cases hx : x ∈ seen
    · simp only [dedupFirstAux, if_pos hx, ih, List.mem_cons]
      constructor
      · rintro ⟨h1, h2⟩; exact ⟨Or.inr h1, h2⟩
      · rintro ⟨h1 | h1, h2⟩
        · exact absurd hx (h1 ▸ h2)
        · exact ⟨h1, h2⟩
    · rw [dedupFirstAux, if_neg hx]
      constructor
      · intro h
        rcases List.mem_cons.mp h with rfl | h
        · exact ⟨List.mem_cons_self _ _, hx⟩
        · obtain ⟨h1, h2⟩ := (ih (x :: seen)).mp h
          exact ⟨List.mem_cons_of_mem _ h1, fun hs => h2 (List.mem_cons_of_mem _ hs)⟩
      · rintro ⟨h1, h2⟩
        rcases List.mem_cons.mp h1 with rfl | h1
        · exact List.mem_cons_self _ _
        · by_cases hax : a = x
          · exact hax ▸ List.mem_cons_self _ _
          · refine List.mem_cons_of_mem _ ((ih (x :: seen)).mpr ⟨h1, fun hs => ?_⟩)
            rcases List.mem_cons.mp hs with h | h
            · exact hax h
            · exact h2 h

theorem mem_dedupFirst [DecidableEq α] (xs : List α) (a : α) :
    a ∈ dedupFirst xs ↔ a ∈ xs := by
  simp [dedupFirst, mem_dedupFirstAux]

theorem nodup_dedupFirstAux [DecidableEq α] (seen : List α) (xs : List α) :
    (dedupFirstAux seen xs).Nodup := by
  induction xs generalizing seen with
  | nil => simp [dedupFirstAux]
  | cons x xs ih =>
    by_cases hx : x ∈ seen
    · simpa [dedupFirstAux, if_pos hx] using ih seen
    · simp only [dedupFirstAux, if_neg hx, List.nodup_cons]
      refine ⟨fun hmem => ?_, ih (x :: seen)⟩
      exact ((mem_dedupFirstAux _ _ _).mp hmem).2 (List.mem_cons_self _ _)

theorem nodup_dedupFirst [DecidableEq α] (xs : List α) : (dedupFirst xs).Nodup :=
  nodup_dedupFirstAux [] xs

/-- ASCII lower-casing of one character, the effect of Python's `str.lower`
on the ASCII inputs this development evaluates. -/
def lowerChar (c : Char) : Char :=
  if 65 ≤ c.toNat ∧ c.toNat ≤ 90 then Char.ofNat (c.toNat + 32) else c

/-- Python `str.lower` on a character list. -/
def pyLower (s : List Char) : List Char := s.map lowerChar

/-- Characters stripped by Python's default `str.strip`. -/
def pyIsSpace (c : Char) : Bool :=
  c.toNat = 32 ∨ c.toNat = 9 ∨ c.toNat = 10 ∨ c.toNat = 13 ∨ c.toNat = 11 ∨ c.toNat = 12

/-- Python `str.strip()`: drop leading and trailing whitespace. -/
def pyStripChars (s : List Char) : List Char :=
  ((s.dropWhile pyIsSpace).reverse.dropWhile pyIsSpace).reverse

/-- Python `str.strip()` on `String`. -/
def pyStrip (s : String) : String := String.mk (pyStripChars s.data)

/-- Decimal digit test (Python `\d` on ASCII input). -/
def pyIsDigit (c : Char) : Bool := 48 ≤ c.toNat ∧ c.toNat ≤ 57

/-- Lowercase ASCII letter test (the regex class `a-z`). -/
def isLowerLetter (c : Char) : Bool := 97 ≤ c.toNat ∧ c.toNat ≤ 122

/-- Substring containment (Python's `in` on strings), by prefix scan. -/
def containsSub (needle : List Char) : List Char → Bool
  | [] => needle.isPrefixOf []
  | c :: rest => needle.isPrefixOf (c :: rest) || containsSub needle rest

/-- Does `rest` start with token `tok` followed immediately by a character
satisfying the boundary class `bnd`?  (The trailing boundary character must
exist: the sources' regexes end in a one-character class.) -/
def tokThenBoundary (bnd : Char → Bool) (tok : List Char) (rest : List Char) : Bool :=
  tok.isPrefixOf rest &&
    (match rest.drop tok.length with
     | c :: _ => bnd c
     | [] => false)

/-- Search for an occurrence of `tok` wrapped by boundary characters on both
sides, the effect of `re.search` for the sources' patterns of the shape
`<boundary class> literal-token <boundary class>`. -/
def boundedSearch (bnd : Char → Bool) (tok : List Char) : List Char → Bool
  | [] => false
  | c :: rest => (bnd c && tokThenBoundary bnd tok rest) || boundedSearch bnd tok rest

/-- Pad with one space on each side and lower-case: Python's
`f' {text.lower()} '`. -/
def padLower (text : String) : List Char := (' ' :: pyLower text.data) ++ [' ']

/-- The keyword match patterns of `parser.py` (`KEYWORD_REGEXES`).  Every
entry of the source list is a literal token — the only regex escapes are
`\(` and `\)` in the two parenthesised entries, written here as the plain
characters they match. -/
def KEYWORD_REGEXES : List String :=
  ["radio", "millimeter", "sub-millimeter", "far-infra-red", "infra-red",
   "optical", "ultra-violet", "x-ray", "gamma ray", "> gev", "tev", "vhe",
   "uhe", "neutrinos", "a comment", "agn", "asteroid(binary)", "asteroid",
   "binary", "black hole", "blazar", "cataclysmic variable", "comet",
   "cosmic rays", "direct collapse event", "exoplanet", "fast radio burst",
   "gamma-ray burst", "globular cluster", "gravitational lensing",
   "gravitational waves", "magnetar", "meteor", "microlensing event",
   "near-earth object", "neutron star", "nova", "planet(minor)", "planet",
   "potentially hazardous asteroid", "pre-main-sequence star", "pulsar",
   "quasar", "request for observations", "soft gamma-ray repeater",
   "solar system object", "star", "supernova remnant", "supernovae",
   "the sun", "tidal disruption event", "transient", "variables",
   "young stellar object"]

/-- Modelled from the spec: `FIXED_KEYWORDS`, the table of canonical keyword
labels living in `model/constants.py`, a file not present under `src/`.  The
spec's fixed vocabulary (§4.3, §8) and the repository's own test expectations
(`test_importer.py`: labels such as `planet(minor)`, `asteroid(binary)`,
`> gev`) pin each canonical label to the literal text of the matching
pattern, so the table holds the same 54 tokens in the same order. -/
def FIXED_KEYWORDS : List String :=
  ["radio", "millimeter", "sub-millimeter", "far-infra-red", "infra-red",
   "optical", "ultra-violet", "x-ray", "gamma ray", "> gev", "tev", "vhe",
   "uhe", "neutrinos", "a comment", "agn", "asteroid(binary)", "asteroid",
   "binary", "black hole", "blazar", "cataclysmic variable", "comet",
   "cosmic rays", "direct collapse event", "exoplanet", "fast radio burst",
   "gamma-ray burst", "globular cluster", "gravitational lensing",
   "gravitational waves", "magnetar", "meteor", "microlensing event",
   "near-earth object", "neutron star", "nova", "planet(minor)", "planet",
   "potentially hazardous asteroid", "pre-main-sequence star", "pulsar",
   "quasar", "request for observations", "soft gamma-ray repeater",
   "solar system object", "star", "supernova remnant", "supernovae",
   "the sun", "tidal disruption event", "transient", "variables",
   "young stellar object"]

/-- The boundary class `[^a-z]` of the keyword regexes: any character that is
not a lowercase ASCII letter. -/
def kwBoundary (c : Char) : Bool := !(isLowerLetter c)

/-- One keyword probe of `extract_keywords`: search the padded lower-cased
text for `[^a-z]{keyword}[^a-z]` (the pattern is a literal token). -/
def kwFound (keyword : String) (text : String) : Bool :=
  boundedSearch kwBoundary keyword.data (padLower text)

/-- `parser.extract_keywords`: walk the pattern table with a parallel index
into `FIXED_KEYWORDS` (embedded as a walk over the zipped lists, the two
tables having equal length) and append the canonical label of every pattern
found in the padded lower-cased text. -/
def extract_keywords (text : String) : List String :=
  (KEYWORD_REGEXES.zip FIXED_KEYWORDS).foldl
    (fun acc p => if kwFound p.1 text then acc ++ [p.2] else acc) []

example : extract_keywords "This is a test" = [] := by decide
example : extract_keywords "comment" = [] := by decide
example : extract_keywords "nova, ASTEROID(binary) and supernova remnant" =
    ["asteroid(binary)", "asteroid", "binary", "nova", "supernova remnant"] := by decide

/-- One row of the alias table handed to the resolver.  In the source the
rows come from the storage collaborator via `get_all_aliases()`; following
the spec's data model the table is passed in as a read-only snapshot
parameter.  Field names follow the source's attribute names (`alias` being a
Lean keyword, the first field carries the `_text` suffix of the spec's
`alias_text`). -/
structure AliasRecord where
  alias_text : String
  object_ID : String
deriving DecidableEq, Repr

/-- The boundary class `[^\d|^a-z]` of the alias regexes: any character that
is not a decimal digit, not `|`, not `^` and not a lowercase letter. -/
def aliasBoundary (c : Char) : Bool :=
  !(pyIsDigit c || c = '|' || c = '^' || isLowerLetter c)

/-- One probe of `extract_known_aliases`: search the padded lower-cased text
for `[^\d|^a-z]{token}[^\d|^a-z]` with the token lower-cased (the alias
texts and object ids are spliced into the regex literally; entries holding
regex metacharacters are modelled as the literal text they name). -/
def aliasFound (token : String) (text : String) : Bool :=
  boundedSearch aliasBoundary (pyLower token.data) (padLower text)

/-- The id contributed by one alias-table row, if any: the lower-cased
object id when the alias text is found, else the lower-cased object id when
the object id itself is found, else nothing. -/
def aliasRowId (text : String) (a : AliasRecord) : Option String :=
  if aliasFound a.alias_text text then some (String.mk (pyLower a.object_ID.data))
  else if aliasFound a.object_ID text then some (String.mk (pyLower a.object_ID.data))
  else none

/-- `parser.extract_known_aliases`: walk the alias table in order, append the
lower-cased object id of every row whose alias text (or, failing that, whose
object id) occurs in the padded lower-cased text, then de-duplicate keeping
first occurrences. -/
def extract_known_aliases (aliases : List AliasRecord) (text : String) : List String :=
  dedupFirst (aliases.foldl
    (fun acc a =>
      if aliasFound a.alias_text text then acc ++ [String.mk (pyLower a.object_ID.data)]
      else if aliasFound a.object_ID text then acc ++ [String.mk (pyLower a.object_ID.data)]
      else acc) [])

/-- Written from the spec's words for claim C5 (refinement comparison only):
the resolver as §4.4 describes it, with the alias and object-id tokens
bounded by non-alphanumeric characters on both sides. -/
def nonAlphanumBoundary (c : Char) : Bool := !c.isAlphanum

/-- Written from the spec's words for claim C5 (refinement comparison only):
`extract_known_aliases` as the claim states it, identical except that token
boundaries are all non-alphanumeric characters. -/
def extract_known_aliases_spec (aliases : List AliasRecord) (text : String) : List String :=
  dedupFirst (aliases.foldl
    (fun acc a =>
      if boundedSearch nonAlphanumBoundary (pyLower a.alias_text.data) (padLower text) then
        acc ++ [String.mk (pyLower a.object_ID.data)]
      else if boundedSearch nonAlphanumBoundary (pyLower a.object_ID.data) (padLower text) then
        acc ++ [String.mk (pyLower a.object_ID.data)]
      else acc) [])

theorem extract_known_aliases_foldl (aliases : List AliasRecord) (text : String)
    (acc : List String) :
    aliases.foldl
      (fun acc a =>
        if aliasFound a.alias_text text then acc ++ [String.mk (pyLower a.object_ID.data)]
        else if aliasFound a.object_ID text then acc ++ [String.mk (pyLower a.object_ID.data)]
        else acc) acc
      = acc ++ aliases.filterMap (aliasRowId text) := by
  induction aliases generalizing acc with
  | nil => simp
  | cons a rest ih =>
    simp only [List.foldl_cons, List.filterMap_cons, aliasRowId]
    by_cases h1 : aliasFound a.alias_text text
    · simp [h1, ih, List.append_assoc]
    · by_cases h2 : aliasFound a.object_ID text
      · simp [h1, h2, ih, List.append_assoc]
      · simp [h1, h2, ih]

/-- The resolver as a filter over the table: each row contributes at most
the one id `aliasRowId` names, pooled in table order and de-duplicated. -/
theorem extract_known_aliases_eq (aliases : List AliasRecord) (text : String) :
    extract_known_aliases aliases text
      = dedupFirst (aliases.filterMap (aliasRowId text)) := by
  rw [extract_known_aliases, extract_known_aliases_foldl]
  rfl

/-- Regular-expression syntax sufficient for the source's date grammars:
character classes, concatenation, ordered alternation and the greedy
optional.  (The grammars use no unbounded repetition.) -/
inductive RE where
  | eps
  | cls (p : Char → Bool)
  | seq (a b : RE)
  | alt (a b : RE)
  | opt (a : RE)

/-- Backtracking interpreter: all suffixes left after matching a prefix of
`s`, in the backtracking preference order of Python's `re` engine —
alternation tries its left branch first, the optional tries to consume
first. -/
def RE.run : RE → List Char → List (List Char)
  | .eps, s => [s]
  | .cls _, [] => []
  | .cls p, c :: rest => if p c then [rest] else []
  | .seq a b, s => (a.run s).flatMap b.run
  | .alt a b, s => a.run s ++ b.run s
  | .opt a, s => a.run s ++ [s]

/-- Length of the preferred match of `r` starting at the head of `s`, if
any: what Python's engine commits to at a fixed start position. -/
def reMatchLen (r : RE) (s : List Char) : Option Nat :=
  match (r.run s).head? with
  | some rem => some (s.length - rem.length)
  | none => none

/-- `re.search`: leftmost start position wins, returning the matched
substring. -/
def research (r : RE) : List Char → Option (List Char)
  | [] => match reMatchLen r [] with
          | some n => some (([] : List Char).take n)
          | none => none
  | c :: rest =>
    match reMatchLen r (c :: rest) with
    | some n => some ((c :: rest).take n)
    | none => research r rest

/-- Fuel-driven loop of `re.findall`: record the leftmost match, resume
after its end (after one character if the match were empty — unreachable for
the bounded date patterns, which always consume at least one character). -/
def findallAux (r : RE) : Nat → List Char → List (List Char)
  | 0, _ => []
  | _ + 1, [] =>
    match reMatchLen r [] with
    | some _ => [[]]
    | none => []
  | fuel + 1, c :: rest =>
    match reMatchLen r (c :: rest) with
    | some n =>
      if n = 0 then [] ++ ([] :: findallAux r fuel rest)
      else (c :: rest).take n :: findallAux r fuel ((c :: rest).drop n)
    | none => findallAux r fuel rest

/-- `re.findall` for patterns without capturing groups: all non-overlapping
matches, scanning left to right. -/
def findall (r : RE) (s : List Char) : List (List Char) :=
  findallAux r (s.length + 1) s

/-- A single literal character. -/
def reLit (c : Char) : RE := .cls (fun d => d = c)

/-- A literal token, character by character. -/
def reStr (s : String) : RE := s.data.foldr (fun c r => .seq (reLit c) r) .eps

/-- Concatenation of a pattern list. -/
def reCat (l : List RE) : RE := l.foldr .seq .eps

/-- Ordered alternation of a pattern list (empty alternation never matches). -/
def reAlts (l : List RE) : RE :=
  match l with
  | [] => .cls (fun _ => false)
  | r :: rest => rest.foldl .alt r

/-- Inclusive character range class such as `[0-3]`. -/
def reRange (lo hi : Nat) : RE := .cls (fun c => lo ≤ c.toNat ∧ c.toNat ≤ hi)

/-- The class `\d`. -/
def reDigit : RE := .cls pyIsDigit

/-- The class `[^\d]`. -/
def reNonDigit : RE := .cls (fun c => !(pyIsDigit c))

/-- The class `\s` (ASCII whitespace, enough for the scanned inputs). -/
def reSpace : RE := .cls pyIsSpace

/-- The optional time suffix common to all ten date grammars:
`(?:;?\s(?:[0-2]\d|[1-9]):[0-5]\d(?::[0-5]\d)?)?`. -/
def reTimeSuffix : RE :=
  .opt (reCat [.opt (reLit ';'), reSpace,
    .alt (reCat [reRange 48 50, reDigit]) (reRange 49 57),
    reLit ':', reRange 48 53, reDigit,
    .opt (reCat [reLit ':', reRange 48 53, reDigit])])

/-- The day alternation `(?:[0-3]\d|[1-9])`. -/
def reDay : RE := .alt (reCat [reRange 48 51, reDigit]) (reRange 49 57)

/-- The numeric-month alternation `(?:[0-1]\d|[1-9])`. -/
def reMonthNum : RE := .alt (reCat [reRange 48 49, reDigit]) (reRange 49 57)

/-- The four-digit year `[1-2]\d\d\d`. -/
def reYear4 : RE := reCat [reRange 49 50, reDigit, reDigit, reDigit]

/-- The year alternation `(?:[1-2]\d\d\d|\d\d)`. -/
def reYear42 : RE := .alt reYear4 (reCat [reDigit, reDigit])

/-- Full month names, in the source's written order. -/
def reMonthFull : RE :=
  reAlts (["january", "february", "march", "april", "may", "june", "july",
    "august", "september", "october", "november", "december"].map reStr)

/-- Abbreviated month names, in the source's written order. -/
def reMonthAbbr : RE :=
  reAlts (["jan", "feb", "mar", "apr", "may", "jun", "jul", "aug", "sep",
    "oct", "nov", "dec"].map reStr)

/-- The ten date grammars of `parser.DATE_REGEXES`, in source order. -/
def DATE_REGEXES : List RE :=
  [reCat [reDay, reSpace, reMonthFull, reSpace, reYear4, reTimeSuffix],
   reCat [reDay, reSpace, reMonthAbbr, reSpace, reYear4, reTimeSuffix],
   reCat [reMonthFull, reSpace, reDay, reLit ',', reSpace, reYear4, reTimeSuffix],
   reCat [reDay, reLit '-', reMonthAbbr, reLit '-', reYear42, reTimeSuffix],
   reCat [reDay, reLit '-', reMonthNum, reLit '-', reYear42, reTimeSuffix],
   reCat [reDay, reLit '/', reMonthNum, reLit '/', reYear42, reTimeSuffix],
   reCat [reMonthNum, reLit '/', reDay, reLit '/', reYear42, reTimeSuffix],
   reCat [reYear42, reLit '/', reMonthNum, reLit '/', reDay, reTimeSuffix],
   reCat [reDay, reLit '.', reMonthNum, reLit '.', reYear4, reTimeSuffix],
   reCat [reYear4, reLit '-', reMonthNum, reLit '-', reDay, reTimeSuffix]]

/-- A date grammar wrapped by the non-digit guards: `[^\d]{regex}[^\d]`. -/
def boundedRE (r : RE) : RE := reCat [reNonDigit, r, reNonDigit]

/-- `parser.extract_dates`: for each grammar, find every non-overlapping
occurrence of the non-digit-bounded pattern in the space-padded lower-cased
text, re-extract the bare date from each bounded match with an inner search,
pool everything in grammar-major order and de-duplicate the raw strings. -/
def extract_dates (text : String) : List String :=
  dedupFirst (DATE_REGEXES.flatMap (fun r =>
    (findall (boundedRE r) (padLower text)).map
      (fun m => String.mk ((research r m).getD []))))

/-- The value-level timestamp produced by `datetime.strptime`: the fields of
a Python `datetime` that the pipeline's formats can set (always naive, no
sub-second part).  Equality is value equality, as in Python. -/
structure DateTime where
  year : Nat
  month : Nat
  day : Nat
  hour : Nat
  minute : Nat
  second : Nat
deriving DecidableEq, Repr

/-- Numeric value of an ASCII digit. -/
def digitVal (c : Char) : Nat := c.toNat - 48

/-- Python strptime's `%d` pattern `3[01]|[12]\d|0[1-9]|[1-9]`, branches in
the engine's preference order. -/
def pDay : List Char → Option (Nat × List Char)
  | c1 :: c2 :: rest =>
    if c1 = '3' && (c2 = '0' || c2 = '1') then some (30 + digitVal c2, rest)
    else if (c1 = '1' || c1 = '2') && pyIsDigit c2 then
      some (10 * digitVal c1 + digitVal c2, rest)
    else if c1 = '0' && 49 ≤ c2.toNat && c2.toNat ≤ 57 then some (digitVal c2, rest)
    else if 49 ≤ c1.toNat && c1.toNat ≤ 57 then some (digitVal c1, c2 :: rest)
    else none
  | [c1] => if 49 ≤ c1.toNat && c1.toNat ≤ 57 then some (digitVal c1, []) else none
  | [] => none

/-- Python strptime's `%m` pattern `1[0-2]|0[1-9]|[1-9]`. -/
def pMonthNum : List Char → Option (Nat × List Char)
  | c1 :: c2 :: rest =>
    if c1 = '1' && (c2 = '0' || c2 = '1' || c2 = '2') then some (10 + digitVal c2, rest)
    else if c1 = '0' && 49 ≤ c2.toNat && c2.toNat ≤ 57 then some (digitVal c2, rest)
    else if 49 ≤ c1.toNat && c1.toNat ≤ 57 then some (digitVal c1, c2 :: rest)
    else none
  | [c1] => if 49 ≤ c1.toNat && c1.toNat ≤ 57 then some (digitVal c1, []) else none
  | [] => none

/-- Python strptime's `%H` pattern `2[0-3]|[0-1]\d|\d`. -/
def pHour : List Char → Option (Nat × List Char)
  | c1 :: c2 :: rest =>
    if c1 = '2' && (c2 = '0' || c2 = '1' || c2 = '2' || c2 = '3') then
      some (20 + digitVal c2, rest)
    else if (c1 = '0' || c1 = '1') && pyIsDigit c2 then
      some (10 * digitVal c1 + digitVal c2, rest)
    else if pyIsDigit c1 then some (digitVal c1, c2 :: rest)
    else none
  | [c1] => if pyIsDigit c1 then some (digitVal c1, []) else none
  | [] => none

/-- Python strptime's `%M` and `%S` pattern `[0-5]\d|\d`. -/
def pMinSec : List Char → Option (Nat × List Char)
  | c1 :: c2 :: rest =>
    if 48 ≤ c1.toNat && c1.toNat ≤ 53 && pyIsDigit c2 then
      some (10 * digitVal c1 + digitVal c2, rest)
    else if pyIsDigit c1 then some (digitVal c1, c2 :: rest)
    else none
  | [c1] => if pyIsDigit c1 then some (digitVal c1, []) else none
  | [] => none

/-- Python strptime's `%Y`: exactly four digits. -/
def pYear4 : List Char → Option (Nat × List Char)
  | c1 :: c2 :: c3 :: c4 :: rest =>
    if pyIsDigit c1 && pyIsDigit c2 && pyIsDigit c3 && pyIsDigit c4 then
      some (1000 * digitVal c1 + 100 * digitVal c2 + 10 * digitVal c3 + digitVal c4, rest)
    else none
  | _ => none

/-- Python strptime's `%y`: exactly two digits, with the CPython century
pivot (00–68 ↦ 2000s, 69–99 ↦ 1900s). -/
def pYear2 : List Char → Option (Nat × List Char)
  | c1 :: c2 :: rest =>
    if pyIsDigit c1 && pyIsDigit c2 then
      let v := 10 * digitVal c1 + digitVal c2
      some (if v ≤ 68 then 2000 + v else 1900 + v, rest)
    else none
  | _ => none

/-- Month-name lookup against a table, longest names first as CPython sorts
its alternation; the scanned input is already lower-cased. -/
def pMonthName (tbl : List (String × Nat)) (s : List Char) : Option (Nat × List Char) :=
  match tbl with
  | [] => none
  | (nm, v) :: rest =>
    if nm.data.isPrefixOf s then some (v, s.drop nm.length) else pMonthName rest s

/-- Full month names for `%B`, sorted by length descending as CPython builds
the alternation. -/
def monthsFull : List (String × Nat) :=
  [("september", 9), ("february", 2), ("november", 11), ("december", 12),
   ("january", 1), ("october", 10), ("august", 8), ("march", 3), ("april", 4),
   ("june", 6), ("july", 7), ("may", 5)]

/-- Abbreviated month names for `%b`. -/
def monthsAbbr : List (String × Nat) :=
  [("jan", 1), ("feb", 2), ("mar", 3), ("apr", 4), ("may", 5), ("jun", 6),
   ("jul", 7), ("aug", 8), ("sep", 9), ("oct", 10), ("nov", 11), ("dec", 12)]

/-- Effect of one `%`-directive on the accumulating timestamp: the parsed
value, the remaining input, or a failure. -/
def applyDir (d : Char) (s : List Char) (tm : DateTime) : Option (DateTime × List Char) :=
  if d = 'd' then (pDay s).map (fun p => ({tm with day := p.1}, p.2))
  else if d = 'm' then (pMonthNum s).map (fun p => ({tm with month := p.1}, p.2))
  else if d = 'B' then (pMonthName monthsFull s).map (fun p => ({tm with month := p.1}, p.2))
  else if d = 'b' then (pMonthName monthsAbbr s).map (fun p => ({tm with month := p.1}, p.2))
  else if d = 'Y' then (pYear4 s).map (fun p => ({tm with year := p.1}, p.2))
  else if d = 'y' then (pYear2 s).map (fun p => ({tm with year := p.1}, p.2))
  else if d = 'H' then (pHour s).map (fun p => ({tm with hour := p.1}, p.2))
  else if d = 'M' then (pMinSec s).map (fun p => ({tm with minute := p.1}, p.2))
  else if d = 'S' then (pMinSec s).map (fun p => ({tm with second := p.1}, p.2))
  else none

/-- Format-directed matcher of CPython's `_strptime`: directives consume
their pattern, whitespace in the format consumes one or more whitespace
characters, any other format character matches itself (the engine is
case-insensitive; here the input arrives lower-cased and format literals are
lowered before comparing), and the whole input must be consumed. -/
def parseFmt : List Char → List Char → DateTime → Option DateTime
  | [], s, tm => if s.isEmpty then some tm else none
  | '%' :: d :: f, s, tm =>
    (applyDir d s tm).bind (fun p => parseFmt f p.2 p.1)
  | c :: f, s, tm =>
    if pyIsSpace c then
      match s with
      | s0 :: srest =>
        if pyIsSpace s0 then parseFmt f ((s0 :: srest).dropWhile pyIsSpace) tm else none
      | [] => none
    else
      match s with
      | s0 :: srest => if lowerChar c = s0 then parseFmt f srest tm else none
      | [] => none

/-- Gregorian leap-year rule, as `datetime.date` validates it. -/
def isLeap (y : Nat) : Bool := (y % 4 = 0 && y % 100 ≠ 0) || y % 400 = 0

/-- Day count of a month, as `datetime.date` validates it. -/
def daysInMonth (y m : Nat) : Nat :=
  if m = 2 then (if isLeap y then 29 else 28)
  else if m = 4 ∨ m = 6 ∨ m = 9 ∨ m = 11 then 30
  else 31

/-- `datetime.strptime(s, fmt)` for the pipeline's formats, as an `Option`:
`none` stands for the `ValueError` the library raises on a failed match or
an out-of-range day. -/
def pyStrptime (fmt : String) (s : String) : Option DateTime :=
  match parseFmt fmt.data (pyLower s.data)
      { year := 1900, month := 1, day := 1, hour := 0, minute := 0, second := 0 } with
  | some tm => if tm.day ≤ daysInMonth tm.year tm.month then some tm else none
  | none => none

/-- The 75 concrete conversion formats of `parser.DATE_FORMATS`, verbatim
and in source order. -/
def DATE_FORMATS : List String :=
  ["%d %B %Y; %H:%M:%S", "%d %b %Y; %H:%M:%S", "%B %d, %Y; %H:%M:%S",
   "%d-%b-%Y; %H:%M:%S", "%d-%m-%Y; %H:%M:%S", "%d/%m/%Y; %H:%M:%S",
   "%m/%d/%Y; %H:%M:%S", "%Y/%m/%d; %H:%M:%S", "%d.%m.%Y; %H:%M:%S",
   "%Y-%m-%d; %H:%M:%S", "%d-%b-%y; %H:%M:%S", "%d-%m-%y; %H:%M:%S",
   "%d/%m/%y; %H:%M:%S", "%m/%d/%y; %H:%M:%S", "%y/%m/%d; %H:%M:%S",
   "%d %B %Y %H:%M:%S", "%d %b %Y %H:%M:%S", "%B %d, %Y %H:%M:%S",
   "%d-%b-%Y %H:%M:%S", "%d-%m-%Y %H:%M:%S", "%d/%m/%Y %H:%M:%S",
   "%m/%d/%Y %H:%M:%S", "%Y/%m/%d %H:%M:%S", "%d.%m.%Y %H:%M:%S",
   "%Y-%m-%d %H:%M:%S", "%d-%b-%y %H:%M:%S", "%d-%m-%y %H:%M:%S",
   "%d/%m/%y %H:%M:%S", "%m/%d/%y %H:%M:%S", "%y/%m/%d %H:%M:%S",
   "%d %B %Y; %H:%M", "%d %b %Y; %H:%M", "%B %d, %Y; %H:%M",
   "%d-%b-%Y; %H:%M", "%d-%m-%Y; %H:%M", "%d/%m/%Y; %H:%M",
   "%m/%d/%Y; %H:%M", "%Y/%m/%d; %H:%M", "%d.%m.%Y; %H:%M",
   "%Y-%m-%d; %H:%M", "%d-%b-%y; %H:%M", "%d-%m-%y; %H:%M",
   "%d/%m/%y; %H:%M", "%m/%d/%y; %H:%M", "%y/%m/%d; %H:%M",
   "%d %B %Y %H:%M", "%d %b %Y %H:%M", "%B %d, %Y %H:%M",
   "%d-%b-%Y %H:%M", "%d-%m-%Y %H:%M", "%d/%m/%Y %H:%M",
   "%m/%d/%Y %H:%M", "%Y/%m/%d %H:%M", "%d.%m.%Y %H:%M",
   "%Y-%m-%d %H:%M", "%d-%b-%y %H:%M", "%d-%m-%y %H:%M",
   "%d/%m/%y %H:%M", "%m/%d/%y %H:%M", "%y/%m/%d %H:%M",
   "%d %B %Y", "%d %b %Y", "%B %d, %Y", "%d-%b-%Y", "%d-%m-%Y",
   "%d/%m/%Y", "%m/%d/%Y", "%Y/%m/%d", "%d.%m.%Y", "%Y-%m-%d",
   "%d-%b-%y", "%d-%m-%y", "%d/%m/%y", "%m/%d/%y", "%y/%m/%d"]

/-- The source's inner loop over `DATE_FORMATS` for one raw string: try each
format in order, committing to the first success (`break`), silently
skipping failures (`except ValueError: pass`). -/
def tryFormats (date : String) : List String → Option DateTime
  | [] => none
  | f :: fs =>
    match pyStrptime f date with
    | some dt => some dt
    | none => tryFormats date fs

/-- `parser.parse_dates`: convert each raw string via the first succeeding
format, dropping strings no format accepts, then de-duplicate the timestamps
by value keeping first occurrences. -/
def parse_dates (dates : List String) : List DateTime :=
  dedupFirst (dates.foldl
    (fun acc d =>
      match tryFormats d DATE_FORMATS with
      | some dt => acc ++ [dt]
      | none => acc) [])

/-- One paragraph element returned by the source's
`soup.find_all('p', {'class': None, 'align': None})` query: its raw
`get_text()`, its `get_text(strip=True)` (an independent attribute of the
element — BeautifulSoup strips each text segment, so it is not derivable
from the raw text), and whether the element holds an embedded `iframe`. -/
structure Paragraph where
  text : String
  textStripped : String
  hasIframe : Bool
deriving DecidableEq, Repr

/-- One anchor element (`<a href=...>`) of the main report container. -/
structure Anchor where
  href : String
  text : String
deriving DecidableEq, Repr

/-- The parsed document as the source queries it through BeautifulSoup: each
field is the result of one `soup.find`/`soup.find_all` call, with `Option`
for queries that may return `None`.  `parse_report` claims are stated over
this post-parse view; an "input document in which element X cannot be
located" is a `Doc` whose corresponding field is `none` (or a too-short
list). -/
structure Doc where
  title? : Option String
  strongs : List String
  paragraphs : List Paragraph
  referencesText? : Option String
  telegramDiv? : Option (List Anchor)
  subjectsText? : Option String
deriving DecidableEq, Repr

/-- The Python exceptions `parse_report` can actually raise, plus the
`MissingReportElementException` its docstring promises (never raised by the
source, which neither imports nor constructs it). -/
inductive PyError where
  | attributeError
  | indexError
  | valueError
  | missingReportElement
deriving DecidableEq, Repr

/-- Accumulator core of maximal-digit-run extraction (`re.findall('\d+')`). -/
def digitRunsAux : List Char → List Char → List (List Char)
  | [], cur => if cur.isEmpty then [] else [cur.reverse]
  | c :: rest, cur =>
    if pyIsDigit c then digitRunsAux rest (c :: cur)
    else if cur.isEmpty then digitRunsAux rest []
    else cur.reverse :: digitRunsAux rest []

/-- All maximal digit runs of a string, left to right. -/
def digitRuns (s : String) : List (List Char) := digitRunsAux s.data []

/-- Numeric value of a digit run (Python `int`). -/
def natOfDigits (ds : List Char) : Nat := ds.foldl (fun acc c => 10 * acc + digitVal c) 0

/-- The `referenced_by` list of `parse_report`: digit runs of the citation
container's text (empty when the container is absent), as integers,
de-duplicated keeping first occurrences. -/
def referencedByIds (doc : Doc) : List Nat :=
  dedupFirst ((digitRuns (match doc.referencesText? with
    | some t => t
    | none => "")).map natOfDigits)

/-- The report-link URL prefix of the source. -/
def url_string : String := "https://www.astronomerstelegram.org/?read="

/-- The reference-link scan of `parse_report`: for each kept anchor (href
contains the report URL, is not the bare URL, and the anchor text is neither
`Previous` nor `Next`), take `re.search('\d+', href)` — the first digit run
of the href; `int(num.group())` on a href with no digits is the source's
`AttributeError` (`num` is `None`). -/
def linkIds : List Anchor → Except PyError (List Nat)
  | [] => .ok []
  | a :: rest =>
    if containsSub url_string.data a.href.data && a.href ≠ url_string &&
        a.text ≠ "Previous" && a.text ≠ "Next" then
      match (digitRuns a.href).head? with
      | some run =>
        match linkIds rest with
        | .ok ids => .ok (natOfDigits run :: ids)
        | .error e => .error e
      | none => .error .attributeError
    else linkIds rest

/-- Python's `list.remove`: drop the first occurrence, `none` (a
`ValueError`) when the value is absent. -/
def pyRemove [DecidableEq α] : List α → α → Option (List α)
  | [], _ => none
  | x :: xs, b => if x = b then some xs else (pyRemove xs b).map (x :: ·)

/-- The removal loop of `parse_report`: remove each `referenced_by` id from
the scanned link ids in turn, failing on the first absent id. -/
def pyRemoveAll [DecidableEq α] (xs : List α) : List α → Option (List α)
  | [] => some xs
  | b :: bs =>
    match pyRemove xs b with
    | some ys => pyRemoveAll ys bs
    | none => none

/-- The body-accumulation condition of `parse_report`: an untagged plain
paragraph qualifies when it has no embedded frame, non-empty stripped text,
and its stripped text does not contain the referred-to-by footer marker. -/
def paraQualifies (p : Paragraph) : Bool :=
  !p.hasIframe && p.textStripped.length ≠ 0 &&
    !(containsSub "Referred to by ATel #:".data p.textStripped.data)

/-- The body fold of `parse_report`: append each qualifying paragraph's raw
text as-is when it already holds a line break, else followed by one line
break. -/
def bodyFold (ps : List Paragraph) : String :=
  ps.foldl
    (fun body p =>
      if paraQualifies p then
        if p.text.data.contains '\n' then body ++ p.text else body ++ p.text ++ "\n"
      else body) ""

/-- `parser.extract_coords`: declared extension point, always empty. -/
def extract_coords (_text : String) : List String := []

/-- `parser.parse_coords`: declared extension point, always empty. -/
def parse_coords (_coords : List String) : List String := []

/-- The record `parse_report` assembles (`model.ds.report_types
.ImportedReport`, whose constructor-argument order and field names are fixed
by the source's call sites and the repository tests). -/
structure ImportedReport where
  atel_num : Nat
  title : String
  authors : String
  body : String
  submission_date : DateTime
  referenced_reports : List Nat
  observation_dates : List DateTime
  keywords : List String
  objects : List String
  coordinates : List String
  referenced_by : List Nat
deriving DecidableEq, Repr

/-- The subjects text `parse_report` feeds the keyword tagger: the subjects
paragraph's text, or the empty string when that paragraph is absent. -/
def subjectsText (doc : Doc) : String :=
  match doc.subjectsText? with
  | some s => s
  | none => ""

/-- `parser.parse_report` over the post-parse document view, the alias table
passed as the read-only snapshot the resolver reads: each failing
BeautifulSoup access raises the exception CPython would (`AttributeError`
on `None.get_text()` / `None.find_all`, `IndexError` on `elements[1]`,
`ValueError` from `strptime` and from `list.remove` on an absent value).
The source's local variables `body`, `referenced_by` and `text` are written
inline (`bodyFold doc.paragraphs`, `referencedByIds doc`, the appended
strings). -/
def parse_report (atel_num : Nat) (aliases : List AliasRecord) (doc : Doc) :
    Except PyError ImportedReport :=
  match doc.title? with
  | none => .error .attributeError
  | some title =>
    match doc.strongs.head? with
    | none => .error .attributeError
    | some authors =>
      match doc.strongs.get? 1 with
      | none => .error .indexError
      | some submission_date =>
        match pyStrptime "%d %b %Y; %H:%M UT" submission_date with
        | none => .error .valueError
        | some formatted_submission_date =>
          match doc.telegramDiv? with
          | none => .error .attributeError
          | some anchors =>
            match linkIds anchors with
            | .error e => .error e
            | .ok ids =>
              match pyRemoveAll ids (referencedByIds doc) with
              | none => .error .valueError
              | some removed =>
                .ok
                  { atel_num := atel_num
                    title := title
                    authors := authors
                    body := pyStrip (bodyFold doc.paragraphs)
                    submission_date := formatted_submission_date
                    referenced_reports := dedupFirst removed
                    observation_dates := parse_dates (extract_dates
                      (title ++ " " ++ pyStrip (bodyFold doc.paragraphs)))
                    keywords := extract_keywords
                      (title ++ " " ++ subjectsText doc ++ " " ++ pyStrip (bodyFold doc.paragraphs))
                    objects := extract_known_aliases aliases
                      (title ++ " " ++ pyStrip (bodyFold doc.paragraphs))
                    coordinates := parse_coords (extract_coords
                      (title ++ " " ++ pyStrip (bodyFold doc.paragraphs)))
                    referenced_by := referencedByIds doc }

theorem pyRemove_some_mem [DecidableEq α] (xs ys : List α) (b : α)
    (h : pyRemove xs b = some ys) : b ∈ xs := by
  induction xs generalizing ys with
  | nil => exact absurd h (by simp [pyRemove])
  | cons x xs ih =>
    rw [pyRemove] at h
    by_cases hx : x = b
    · exact hx ▸ List.mem_cons_self _ _
    · rw [if_neg hx] at h
      rcases Option.map_eq_some'.mp h with ⟨ys', h1, _⟩
      exact List.mem_cons_of_mem _ (ih ys' h1)

theorem pyRemove_sublist [DecidableEq α] (xs ys : List α) (b : α)
    (h : pyRemove xs b = some ys) : ys.Sublist xs := by
  induction xs generalizing ys with
  | nil => exact absurd h (by simp [pyRemove])
  | cons x xs ih =>
    rw [pyRemove] at h
    by_cases hx : x = b
    · rw [if_pos hx] at h
      cases h
      exact List.sublist_cons_self _ _
    · rw [if_neg hx] at h
      rcases Option.map_eq_some'.mp h with ⟨ys', h1, h2⟩
      exact h2 ▸ List.Sublist.cons₂ x (ih ys' h1)

theorem pyRemove_count_self [DecidableEq α] (xs ys : List α) (b : α)
    (h : pyRemove xs b = some ys) : ys.count b + 1 = xs.count b := by
  induction xs generalizing ys with
  | nil => exact absurd h (by simp [pyRemove])
  | cons x xs ih =>
    rw [pyRemove] at h
    by_cases hx : x = b
    · rw [if_pos hx] at h
      cases h
      simp [hx, List.count_cons]
    · rw [if_neg hx] at h
      rcases Option.map_eq_some'.mp h with ⟨ys', h1, h2⟩
      subst h2
      have hrec := ih ys' h1
      have hbx : (b == x) = false := by
        simp only [beq_eq_false_iff_ne, ne_eq]
        exact fun hc => hx hc.symm
      simp only [List.count_cons, hbx, if_false]
      omega

theorem pyRemove_count_le [DecidableEq α] (xs ys : List α) (a b : α)
    (h : pyRemove xs b = some ys) : ys.count a ≤ xs.count a :=
  (pyRemove_sublist xs ys b h).count_le a

theorem pyRemoveAll_count_le [DecidableEq α] (xs ys : List α) (bs : List α) (a : α)
    (h : pyRemoveAll xs bs = some ys) : ys.count a ≤ xs.count a := by
  induction bs generalizing xs with
  | nil =>
    rw [pyRemoveAll] at h
    cases h
    exact le_refl _
  | cons b bs ih =>
    rw [pyRemoveAll] at h
    rcases hz : pyRemove xs b with _ | zs
    · rw [hz] at h; exact absurd h (by simp)
    · rw [hz] at h
      exact le_trans (ih zs h) (pyRemove_count_le xs zs a b hz)

theorem pyRemoveAll_mem [DecidableEq α] (xs ys : List α) (bs : List α)
    (h : pyRemoveAll xs bs = some ys) : ∀ b ∈ bs, b ∈ xs := by
  induction bs generalizing xs with
  | nil => intro b hb; exact absurd hb (List.not_mem_nil b)
  | cons b0 bs ih =>
    intro b hb
    rw [pyRemoveAll] at h
    rcases hz : pyRemove xs b0 with _ | zs
    · rw [hz] at h; exact absurd h (by simp)
    · rw [hz] at h
      rcases List.mem_cons.mp hb with rfl | hb
      · exact pyRemove_some_mem xs zs b hz
      · exact (pyRemove_sublist xs zs b0 hz).mem (ih zs h b hb)

theorem pyRemoveAll_not_mem [DecidableEq α] (xs ys : List α) (bs : List α)
    (hcnt : ∀ b ∈ bs, xs.count b ≤ 1)
    (h : pyRemoveAll xs bs = some ys) : ∀ b ∈ bs, b ∉ ys := by
  induction bs generalizing xs with
  | nil => intro b hb; exact absurd hb (List.not_mem_nil b)
  | cons b0 bs ih =>
    intro b hb
    rw [pyRemoveAll] at h
    rcases hz : pyRemove xs b0 with _ | zs
    · rw [hz] at h; exact absurd h (by simp)
    · rw [hz] at h
      rcases List.mem_cons.mp hb with rfl | hb
      · have h1 : zs.count b + 1 = xs.count b := pyRemove_count_self xs zs b hz
        have h2 : xs.count b ≤ 1 := hcnt b (List.mem_cons_self _ _)
        have h3 : zs.count b = 0 := by omega
        have h4 : ys.count b ≤ zs.count b := pyRemoveAll_count_le zs ys bs b h
        rw [← List.count_pos_iff]
        omega
      · refine ih zs (fun b' hb' => ?_) h b hb
        exact le_trans (pyRemove_count_le xs zs b' b0 hz)
          (hcnt b' (List.mem_cons_of_mem _ hb'))

/-- The per-paragraph join rule the spec states: a paragraph whose raw text
holds a line break is taken as-is, otherwise one line break is appended. -/
def paraJoinRule (p : Paragraph) : String :=
  if p.text.data.contains '\n' then p.text else p.text ++ "\n"

theorem bodyFold_go (ps : List Paragraph) (acc : String) :
    ps.foldl
      (fun body p =>
        if paraQualifies p then
          if p.text.data.contains '\n' then body ++ p.text else body ++ p.text ++ "\n"
        else body) acc
      = acc ++ String.join ((ps.filter paraQualifies).map paraJoinRule) := by
  induction ps generalizing acc with
  | nil =>
    apply String.ext
    simp [String.data_append]
  | cons p rest ih =>
    simp only [List.foldl_cons, List.filter_cons]
    by_cases hq : paraQualifies p
    · simp only [hq, if_true, List.map_cons]
      by_cases hn : p.text.data.contains '\n'
      · have hn' : '\n' ∈ p.text.data := by simpa using hn
        rw [if_pos hn, ih]
        apply String.ext
        simp [String.data_append, String.data_join, paraJoinRule, hn']
      · have hn' : '\n' ∉ p.text.data := by simpa using hn
        rw [if_neg hn, ih]
        apply String.ext
        simp [String.data_append, String.data_join, paraJoinRule, hn']
    · simp only [hq, if_false, Bool.false_eq_true]
      exact ih acc

/-- The body accumulation as the spec's join: the concatenation, over the
qualifying paragraphs in order, of each paragraph's text under the join
rule. -/
theorem bodyFold_eq (ps : List Paragraph) :
    bodyFold ps = String.join ((ps.filter paraQualifies).map paraJoinRule) := by
  rw [bodyFold, bodyFold_go]
  apply String.ext
  simp [String.data_append]

theorem extract_keywords_go (pairs : List (String × String)) (text : String)
    (acc : List String) :
    pairs.foldl (fun acc p => if kwFound p.1 text then acc ++ [p.2] else acc) acc
      = acc ++ (pairs.filter (fun p => kwFound p.1 text)).map Prod.snd := by
  induction pairs generalizing acc with
  | nil => simp
  | cons p rest ih =>
    simp only [List.foldl_cons, List.filter_cons]
    by_cases hf : kwFound p.1 text
    · simp [hf, ih, List.append_assoc]
    · simp [hf, ih]

/-- The keyword tagger as a filtered projection of the zipped vocabulary
tables: the canonical labels of the matching patterns, in table order. -/
theorem extract_keywords_eq (text : String) :
    extract_keywords text
      = ((KEYWORD_REGEXES.zip FIXED_KEYWORDS).filter
          (fun p => kwFound p.1 text)).map Prod.snd := by
  rw [extract_keywords, extract_keywords_go]
  rfl

theorem parse_dates_go (dates : List String) (acc : List DateTime) :
    dates.foldl
      (fun acc d =>
        match tryFormats d DATE_FORMATS with
        | some dt => acc ++ [dt]
        | none => acc) acc
      = acc ++ dates.filterMap (fun d => tryFormats d DATE_FORMATS) := by
  induction dates generalizing acc with
  | nil => simp
  | cons d rest ih =>
    simp only [List.foldl_cons, List.filterMap_cons]
    rcases h : tryFormats d DATE_FORMATS with _ | dt
    · simp [h, ih]
    · simp [h, ih, List.append_assoc]

theorem parse_report_ok_inv {num : Nat} {al : List AliasRecord} {doc : Doc}
    {r : ImportedReport} (h : parse_report num al doc = .ok r) :
    r.body = pyStrip (bodyFold doc.paragraphs) ∧
    r.referenced_by = referencedByIds doc ∧
    ∃ anchors ids removed,
      doc.telegramDiv? = some anchors ∧
      linkIds anchors = Except.ok ids ∧
      pyRemoveAll ids (referencedByIds doc) = some removed ∧
      r.referenced_reports = dedupFirst removed := by
  unfold parse_report at h
  rcases h1 : doc.title? with _ | title
  · rw [h1] at h; exact Except.noConfusion h
  simp only [h1] at h
  rcases h2 : doc.strongs.head? with _ | authors
  · rw [h2] at h; exact Except.noConfusion h
  simp only [h2] at h
  rcases h3 : doc.strongs.get? 1 with _ | sub
  · rw [h3] at h; exact Except.noConfusion h
  simp only [h3] at h
  rcases h4 : pyStrptime "%d %b %Y; %H:%M UT" sub with _ | fdt
  · rw [h4] at h; exact Except.noConfusion h
  simp only [h4] at h
  rcases h5 : doc.telegramDiv? with _ | anchors
  · rw [h5] at h; exact Except.noConfusion h
  simp only [h5] at h
  rcases h6 : linkIds anchors with e | ids
  · rw [h6] at h; exact Except.noConfusion h
  simp only [h6] at h
  rcases h7 : pyRemoveAll ids (referencedByIds doc) with _ | removed
  · rw [h7] at h; exact Except.noConfusion h
  simp only [h7] at h
  injection h with hr
  subst hr
  exact ⟨rfl, rfl, anchors, ids, removed, rfl, h6, h7, rfl⟩

/-- Is an `Except` value a success? -/
def exceptOk : Except ε α → Bool
  | .ok _ => true
  | .error _ => false

theorem linkIds_no_missing (anchors : List Anchor) :
    linkIds anchors ≠ Except.error PyError.missingReportElement := by
  induction anchors with
  | nil => intro h; exact Except.noConfusion h
  | cons a rest ih =>
    intro h
    rw [linkIds] at h
    by_cases hcond : containsSub url_string.data a.href.data && a.href ≠ url_string &&
        a.text ≠ "Previous" && a.text ≠ "Next"
    · rw [if_pos hcond] at h
      rcases hrun : (digitRuns a.href).head? with _ | run
      · rw [hrun] at h
        injection h with h
        exact PyError.noConfusion h
      · rw [hrun] at h
        rcases hrest : linkIds rest with e | ids
        · rw [hrest] at h
          injection h with h
          exact ih (h ▸ hrest)
        · rw [hrest] at h
          exact Except.noConfusion h
    · rw [if_neg hcond] at h
      exact ih h

theorem parse_report_no_missing (num : Nat) (al : List AliasRecord) (doc : Doc) :
    parse_report num al doc ≠ Except.error PyError.missingReportElement := by
  intro h
  unfold parse_report at h
  rcases h1 : doc.title? with _ | title
  · rw [h1] at h; injection h with h; exact PyError.noConfusion h
  simp only [h1] at h
  rcases h2 : doc.strongs.head? with _ | authors
  · rw [h2] at h; injection h with h; exact PyError.noConfusion h
  simp only [h2] at h
  rcases h3 : doc.strongs.get? 1 with _ | sub
  · rw [h3] at h; injection h with h; exact PyError.noConfusion h
  simp only [h3] at h
  rcases h4 : pyStrptime "%d %b %Y; %H:%M UT" sub with _ | fdt
  · rw [h4] at h; injection h with h; exact PyError.noConfusion h
  simp only [h4] at h
  rcases h5 : doc.telegramDiv? with _ | anchors
  · rw [h5] at h; injection h with h; exact PyError.noConfusion h
  simp only [h5] at h
  rcases h6 : linkIds anchors with e | ids
  · rw [h6] at h
    injection h with h
    exact linkIds_no_missing anchors (h ▸ h6)
  simp only [h6] at h
  rcases h7 : pyRemoveAll ids (referencedByIds doc) with _ | removed
  · rw [h7] at h; injection h with h; exact PyError.noConfusion h
  simp only [h7] at h
  exact Except.noConfusion h

set_option maxRecDepth 100000

/-- Document whose report container links twice to report 5 while the
citation container also names 5: the removal loop deletes only the first
occurrence. -/
def exDocC1 : Doc :=
  { title? := some "t", strongs := ["a", "11 Feb 2007; 09:48 UT"], paragraphs := [],
    referencesText? := some "5",
    telegramDiv? := some [⟨"https://www.astronomerstelegram.org/?read=5", "x"⟩,
                          ⟨"https://www.astronomerstelegram.org/?read=5", "y"⟩],
    subjectsText? := none }

/-- The record `parse_report` assembles from `exDocC1`. -/
def exRecC1 : ImportedReport :=
  { atel_num := 1000, title := "t", authors := "a", body := "",
    submission_date := ⟨2007, 2, 11, 9, 48, 0⟩, referenced_reports := [5],
    observation_dates := [], keywords := [], objects := [], coordinates := [],
    referenced_by := [5] }

/-- C1: the claim states that for every assembled record the sets
`referenced_reports` and `referenced_by` are disjoint.  Counterexample: on
`exDocC1` the record is assembled (`Except.ok`) and report id 5 appears in
both lists, because the source removes each `referenced_by` id only once
(`list.remove`) and de-duplicates the link ids only after the removal
loop. -/
theorem claim_C1_counterexample :
    parse_report 1000 [] exDocC1 = Except.ok exRecC1 ∧
    5 ∈ exRecC1.referenced_reports ∧ 5 ∈ exRecC1.referenced_by := by
  refine ⟨by rfl, by decide, by decide⟩

/-- C1 (amended): for every assembled record whose scanned reference-link
ids contain each `referenced_by` id at most once, `referenced_reports` and
`referenced_by` are disjoint. -/
theorem claim_C1_amended (num : Nat) (al : List AliasRecord) (doc : Doc)
    (anchors : List Anchor) (ids : List Nat) (r : ImportedReport)
    (hdiv : doc.telegramDiv? = some anchors)
    (hids : linkIds anchors = Except.ok ids)
    (hcnt : ∀ b ∈ referencedByIds doc, ids.count b ≤ 1)
    (hok : parse_report num al doc = Except.ok r) :
    ∀ n ∈ r.referenced_reports, n ∉ r.referenced_by := by
  obtain ⟨-, hrb, anchors', ids', removed, hdiv', hids', hrem, hrr⟩ := parse_report_ok_inv hok
  rw [hdiv'] at hdiv
  injection hdiv with hdiv
  subst hdiv
  rw [hids'] at hids
  injection hids with hids
  subst hids
  intro n hn hmem
  rw [hrr, mem_dedupFirst] at hn
  rw [hrb] at hmem
  exact pyRemoveAll_not_mem ids' removed (referencedByIds doc) hcnt hrem n hmem hn

/-- Document whose report container links to reports 7 and 8 once each, the
citation container naming 7. -/
def exDocC1W : Doc :=
  { title? := some "t", strongs := ["a", "11 Feb 2007; 09:48 UT"], paragraphs := [],
    referencesText? := some "7",
    telegramDiv? := some [⟨"https://www.astronomerstelegram.org/?read=7", "x"⟩,
                          ⟨"https://www.astronomerstelegram.org/?read=8", "y"⟩],
    subjectsText? := none }

/-- The record `parse_report` assembles from `exDocC1W`. -/
def exRecC1W : ImportedReport :=
  { atel_num := 1000, title := "t", authors := "a", body := "",
    submission_date := ⟨2007, 2, 11, 9, 48, 0⟩, referenced_reports := [8],
    observation_dates := [], keywords := [], objects := [], coordinates := [],
    referenced_by := [7] }

/-- C1 (amended) at a concrete input: on `exDocC1W` the link ids `[7, 8]`
hold each referenced-by id once, and the assembled record keeps 8 out of
`referenced_by`. -/
theorem claim_C1_amended_witness : (8 : Nat) ∉ exRecC1W.referenced_by :=
  claim_C1_amended 1000 [] exDocC1W
    [⟨"https://www.astronomerstelegram.org/?read=7", "x"⟩,
     ⟨"https://www.astronomerstelegram.org/?read=8", "y"⟩]
    [7, 8] exRecC1W rfl (by rfl) (by decide) (by rfl) 8 (by decide)

/-- Document whose citation container names report 5 while the report
container holds no report links at all. -/
def exDocC2 : Doc :=
  { title? := some "t", strongs := ["a", "11 Feb 2007; 09:48 UT"], paragraphs := [],
    referencesText? := some "5", telegramDiv? := some [], subjectsText? := none }

/-- C2: the claim states that removing a `referenced_by` id that is absent
from the scanned reference ids is a benign no-op and the record is still
assembled.  Counterexample: on `exDocC2` the citation id 5 is absent from
the (empty) link ids and `parse_report` raises `ValueError`
(`list.remove(x): x not in list`) instead of assembling a record. -/
theorem claim_C2_counterexample :
    referencedByIds exDocC2 = [5] ∧
    exDocC2.telegramDiv? = some [] ∧ linkIds [] = Except.ok [] ∧
    parse_report 1000 [] exDocC2 = Except.error PyError.valueError := by
  refine ⟨by decide, by rfl, by rfl, by rfl⟩

/-- C2 (amended): whenever some id of the citation container is absent from
the scanned reference-link ids, `parse_report` raises `ValueError` — the
record is never assembled. -/
theorem claim_C2_amended (num : Nat) (al : List AliasRecord) (doc : Doc)
    (anchors : List Anchor) (ids : List Nat) (b : Nat)
    (hdiv : doc.telegramDiv? = some anchors)
    (hids : linkIds anchors = Except.ok ids)
    (hb : b ∈ referencedByIds doc) (habs : b ∉ ids) :
    exceptOk (parse_report num al doc) = false := by
  rcases hp : parse_report num al doc with e | r
  · rfl
  · obtain ⟨-, -, anchors', ids', removed, hdiv', hids', hrem, -⟩ := parse_report_ok_inv hp
    rw [hdiv'] at hdiv
    injection hdiv with hdiv
    subst hdiv
    rw [hids'] at hids
    injection hids with hids
    subst hids
    exact absurd (pyRemoveAll_mem ids' removed (referencedByIds doc) hrem b hb) habs

/-- C2 (amended) at a concrete input: on `exDocC2`, citation id 5 is absent
from the empty link list and assembly fails. -/
theorem claim_C2_amended_witness : exceptOk (parse_report 1000 [] exDocC2) = false :=
  claim_C2_amended 1000 [] exDocC2 [] [] 5 rfl rfl (by decide) (by decide)

/-- Does a `parse_report` outcome avoid the `MissingReportElement` failure
(any success, or any of the exceptions CPython actually raises)? -/
def neverMissingReportElement : Except PyError ImportedReport → Bool
  | .error .missingReportElement => false
  | _ => true

/-- Document in which the title heading cannot be located. -/
def exDocC3a : Doc :=
  { title? := none, strongs := ["a", "11 Feb 2007; 09:48 UT"], paragraphs := [],
    referencesText? := none, telegramDiv? := some [], subjectsText? := none }

/-- Document in which no emphasized (strong) element can be located. -/
def exDocC3b : Doc :=
  { title? := some "t", strongs := [], paragraphs := [],
    referencesText? := none, telegramDiv? := some [], subjectsText? := none }

/-- Document in which the second emphasized element cannot be located. -/
def exDocC3c : Doc :=
  { title? := some "t", strongs := ["a"], paragraphs := [],
    referencesText? := none, telegramDiv? := some [], subjectsText? := none }

/-- C3: the claim states that a missing title heading, missing first
emphasized element or missing second emphasized element makes `parse_report`
raise `MissingReportElement` and no other exception.  The source instead
raises `AttributeError` (calling `get_text` on the `None` returned by
`soup.find`) for the first two anchors and `IndexError` (`elements[1]`) for
the third, and it can never raise `MissingReportElement` at all — the
exception its docstring promises is neither imported nor constructed
anywhere in `parser.py`. -/
theorem claim_C3_code_behavior :
    parse_report 1000 [] exDocC3a = Except.error PyError.attributeError ∧
    parse_report 1000 [] exDocC3b = Except.error PyError.attributeError ∧
    parse_report 1000 [] exDocC3c = Except.error PyError.indexError ∧
    ∀ (n : Nat) (al : List AliasRecord) (d : Doc),
      neverMissingReportElement (parse_report n al d) = true := by
  refine ⟨by rfl, by rfl, by rfl, fun n al d => ?_⟩
  rcases hp : parse_report n al d with e | r
  · rcases e with _ | _ | _ | _
    · rfl
    · rfl
    · rfl
    · exact absurd hp (parse_report_no_missing n al d)
  · rfl

/-- C4: the claim states the three boundary-correctness evaluations of the
spec, the third returning exactly `{nova, asteroid(binary), supernova
remnant}`.  Counterexample: on that third input the tagger also emits
`binary` — the parentheses of `asteroid(binary)` are themselves `[^a-z]`
boundary characters, so `binary` (and likewise `asteroid`) match as full
tokens inside it. -/
theorem claim_C4_counterexample :
    "binary" ∈ extract_keywords "nova, ASTEROID(binary) and supernova remnant" ∧
    "binary" ∉ ["nova", "asteroid(binary)", "supernova remnant"] := by
  refine ⟨by decide, by decide⟩

/-- C4 (amended): the first two evaluations hold as claimed; the third input
yields, in vocabulary order, `asteroid(binary)`, `asteroid`, `binary`,
`nova` and `supernova remnant` — the claimed three labels plus `asteroid`
and `binary`, which match with the parentheses as boundaries. -/
theorem claim_C4_amended :
    extract_keywords "This is a test" = [] ∧
    extract_keywords "comment" = [] ∧
    extract_keywords "nova, ASTEROID(binary) and supernova remnant" =
      ["asteroid(binary)", "asteroid", "binary", "nova", "supernova remnant"] := by
  refine ⟨by decide, by decide, by decide⟩

/-- Alias table for the C5 counterexample. -/
def exAliasTbl5 : List AliasRecord := [⟨"m31", "Messier 31"⟩]

/-- C5: the claim states the resolver finds tokens bounded by
non-alphanumeric characters.  Counterexample: the source's boundary class
`[^\d|^a-z]` also excludes `|` and `^`, so on the text `|m31|` the code
finds nothing while the claim's non-alphanumeric-boundary algorithm
resolves the alias. -/
theorem claim_C5_counterexample :
    extract_known_aliases exAliasTbl5 "|m31|" = [] ∧
    extract_known_aliases_spec exAliasTbl5 "|m31|" = ["messier 31"] := by
  refine ⟨by decide, by decide⟩

/-- C5 (amended): the resolver walks the alias table in order; each row
contributes at most one id — the lower-cased canonical object id, emitted
when the alias text is found as a token of the padded lower-cased text, or
failing that when the object id itself is found, token boundaries being the
characters of the class `[^\d|^a-z]` (not a digit, not `|`, not `^`, not a
lowercase letter); the pooled ids are de-duplicated keeping first
occurrences. -/
theorem claim_C5_amended (aliases : List AliasRecord) (text : String) :
    extract_known_aliases aliases text
      = dedupFirst (aliases.filterMap (aliasRowId text)) ∧
    (extract_known_aliases aliases text).Nodup :=
  ⟨extract_known_aliases_eq aliases text,
   (extract_known_aliases_eq aliases text) ▸ nodup_dedupFirst _⟩

/-- C6: for every document whose assembly succeeds, the record's body is,
bit for bit, the trimmed concatenation over the qualifying paragraphs
(untagged plain paragraph, no embedded frame, non-empty stripped text, not
the referred-to-by footer) of the paragraph's raw text — as-is when it
already holds a line break, else followed by exactly one line break. -/
theorem claim_C6 (num : Nat) (al : List AliasRecord) (doc : Doc) (r : ImportedReport)
    (h : parse_report num al doc = Except.ok r) :
    r.body = pyStrip (String.join
      ((doc.paragraphs.filter paraQualifies).map paraJoinRule)) := by
  rw [(parse_report_ok_inv h).1, bodyFold_eq]

/-- Document with one plain paragraph, one paragraph already holding a line
break, and one all-whitespace paragraph. -/
def exDocC6 : Doc :=
  { title? := some "t", strongs := ["a", "11 Feb 2007; 09:48 UT"],
    paragraphs := [⟨"Hello", "Hello", false⟩, ⟨" A
B ", "AB", false⟩, ⟨"  ", "", false⟩],
    referencesText? := none, telegramDiv? := some [], subjectsText? := none }

/-- The record `parse_report` assembles from `exDocC6`: the body keeps the
paragraph-internal line break as-is, gains one appended break after the
first paragraph, drops the whitespace-only paragraph, and is trimmed. -/
def exRecC6 : ImportedReport :=
  { atel_num := 1000, title := "t", authors := "a", body := "Hello
 A
B",
    submission_date := ⟨2007, 2, 11, 9, 48, 0⟩, referenced_reports := [],
    observation_dates := [], keywords := [], objects := [], coordinates := [],
    referenced_by := [] }

/-- C6 at a concrete input: the assembled body of `exDocC6` equals the
trimmed rule-based join. -/
theorem claim_C6_witness :
    exRecC6.body = pyStrip (String.join
      ((exDocC6.paragraphs.filter paraQualifies).map paraJoinRule)) :=
  claim_C6 1000 [] exDocC6 exRecC6 (by rfl)

/-- C7: `parse_dates` converts each raw string through the ordered format
list, committing to the first format that succeeds — so each input string
contributes at most one timestamp, and a string no format accepts is
dropped without any failure (the embedding is total) — and the pooled
timestamps are de-duplicated by value keeping first occurrences. -/
theorem claim_C7 (dates : List String) :
    parse_dates dates
      = dedupFirst (dates.filterMap (fun d => tryFormats d DATE_FORMATS)) ∧
    (parse_dates dates).Nodup := by
  constructor
  · rw [parse_dates, parse_dates_go]
    rfl
  · exact nodup_dedupFirst _

/-- C8: for every input text the tagger's output is a sublist of the fixed
vocabulary — labels appear in vocabulary definition order, each at most
once — and every returned label belongs to the vocabulary. -/
theorem claim_C8 (text : String) :
    (extract_keywords text).Sublist FIXED_KEYWORDS ∧
    (extract_keywords text).Nodup ∧
    ∀ k, k ∈ extract_keywords text → k ∈ FIXED_KEYWORDS := by
  have hsub : (extract_keywords text).Sublist FIXED_KEYWORDS := by
    rw [extract_keywords_eq]
    have h1 := (List.filter_sublist (l := KEYWORD_REGEXES.zip FIXED_KEYWORDS)
      (p := fun p => kwFound p.1 text)).map Prod.snd
    have h2 : (KEYWORD_REGEXES.zip FIXED_KEYWORDS).map Prod.snd = FIXED_KEYWORDS := by decide
    rw [h2] at h1
    exact h1
  have hnd : FIXED_KEYWORDS.Nodup := by decide
  exact ⟨hsub, hnd.sublist hsub, fun k hk => hsub.mem hk⟩

/-- C8 at a concrete input. -/
theorem claim_C8_witness :
    (extract_keywords "the nova!").Sublist FIXED_KEYWORDS ∧
    (extract_keywords "the nova!").Nodup ∧
    "nova" ∈ FIXED_KEYWORDS :=
  ⟨(claim_C8 "the nova!").1, (claim_C8 "the nova!").2.1,
   (claim_C8 "the nova!").2.2 "nova" (by decide)⟩

/-- Alias table (mixed-case canonical id) for the C9 witness. -/
def exAliasTbl9 : List AliasRecord := [⟨"M31", "Messier31"⟩]

/-- C9: every id the resolver returns is the lower-cased form of the
canonical object id of some alias-table row — case-normalized even when the
table stores the id in mixed case. -/
theorem claim_C9 (aliases : List AliasRecord) (text : String) (idv : String)
    (h : idv ∈ extract_known_aliases aliases text) :
    ∃ a, a ∈ aliases ∧ idv = String.mk (pyLower a.object_ID.data) := by
  rw [extract_known_aliases_eq, mem_dedupFirst] at h
  rcases List.mem_filterMap.mp h with ⟨a, ha, hrow⟩
  refine ⟨a, ha, ?_⟩
  unfold aliasRowId at hrow
  by_cases h1 : aliasFound a.alias_text text
  · rw [if_pos h1] at hrow
    injection hrow with hrow
    exact hrow.symm
  · rw [if_neg h1] at hrow
    by_cases h2 : aliasFound a.object_ID text
    · rw [if_pos h2] at hrow
      injection hrow with hrow
      exact hrow.symm
    · rw [if_neg h2] at hrow
      exact Option.noConfusion hrow

/-- C9 at a concrete input: the table stores `Messier31`, the output is
`messier31`. -/
theorem claim_C9_witness :
    ∃ a, a ∈ exAliasTbl9 ∧ "messier31" = String.mk (pyLower a.object_ID.data) :=
  claim_C9 exAliasTbl9 "saw m31 today" "messier31" (by decide)

/-- C10: the input `1999-02-01,1999-03-04` holds two dates of the
`yyyy-mm-dd` grammar, each bounded by non-digits, separated by the single
comma; the scan returns only the first date, the shared comma having been
consumed by the first bounded match — while each date alone is extracted. -/
theorem claim_C10 :
    extract_dates "1999-02-01,1999-03-04" = ["1999-02-01"] ∧
    extract_dates "1999-02-01" = ["1999-02-01"] ∧
    extract_dates "1999-03-04" = ["1999-03-04"] := by
  refine ⟨by decide, by decide, by decide⟩
